import Mathlib

/-!
# RealEstateFrontend: a shallow embedding of `src/App.js`

The file embeds the interaction logic of the single React module `App.js`:

* the values that reach the renderer from the parsed response (`JSValue`,
  `Project`, `Facility`, `AnalysisResult`);
* the `NearbyProjects` component: its `onClick` handler and its render
  function, as a function of the props and of the hook state
  `expandedProject`;
* the `handleSubmit` handler of `App`, as the ordered list of effects it
  performs for each outcome of the network call, with the `try` / `catch` /
  `finally` structure of the source;
* the part of the `App` render function that mounts `NearbyProjects`.

Styled components are plain wrappers, so an element is represented by its
component name and its children.
-/

namespace RealEstateFrontend

/-! ## JavaScript values -/

/-- The primitive JavaScript values a field of the parsed response can hold;
`undefined` is what reading a missing property gives. Numbers are modelled as
integers: `JSON.parse` never yields `NaN`, and the only operation the source
applies to a number is the truthiness test. -/
inductive JSValue where
  | undefined
  | null
  | bool (b : Bool)
  | number (n : Int)
  | string (s : String)
  deriving DecidableEq, Repr

namespace JSValue

/-- JavaScript `ToBoolean` on the primitive values. -/
def truthy : JSValue → Bool
  | undefined => false
  | null => false
  | bool b => b
  | number n => n != 0
  | string s => s != ""

/-- The JavaScript operator `a || b`: `a` when it is truthy, else `b`. -/
def or (a b : JSValue) : JSValue :=
  if a.truthy then a else b

end JSValue

/-! ## Data model of the response -/

/-- One entry of `project.facilities`; the renderer reads `name` and `distance`. -/
structure Facility where
  name : JSValue
  distance : JSValue
  deriving DecidableEq, Repr

/-- The value of the property `project.facilities`: missing (`undefined`),
`null`, or an array of facilities. -/
inductive FacilitiesField where
  | undefined
  | null
  | array (fs : List Facility)
  deriving DecidableEq, Repr

/-- A project of the response, with the properties the renderer reads. -/
structure Project where
  name : JSValue
  coordinates : List JSValue
  aqi : JSValue
  distance : JSValue
  categories : JSValue
  address : JSValue
  postcode : JSValue
  country : JSValue
  developer_reputation : JSValue
  facilities : FacilitiesField
  deriving DecidableEq, Repr

/-- The parsed body of a successful response. -/
structure AnalysisResult where
  main_project : Project
  nearby_projects : List Project
  analysis : JSValue
  deriving DecidableEq, Repr

/-! ## Rendered elements -/

/-- A leaf child of an element: literal JSX text, or the value of a
`{expression}` child. -/
inductive Child where
  | text (s : String)
  | expr (v : JSValue)
  deriving DecidableEq, Repr

/-- The element `<FacilityItem key={i}>…</FacilityItem>`. -/
structure FacilityItem where
  key : Nat
  children : List Child
  deriving DecidableEq, Repr

/-- The value of the child expression of `<FacilitiesList>`:
`project.facilities && project.facilities.map(...)`. React renders nothing for
`undefined` and `null`. -/
inductive FacilitiesChildren where
  | undefined
  | null
  | items (xs : List FacilityItem)
  deriving DecidableEq, Repr

/-- The children of `<ProjectDetails>`. -/
inductive DetailNode where
  | ProjectDetail (children : List Child)
  | FacilitiesTitle (children : List Child)
  | FacilitiesList (children : FacilitiesChildren)
  deriving DecidableEq, Repr

/-- The element `<ProjectItem key={index}>…</ProjectItem>`: the children of
`<ProjectName>` and `<ExpandIcon>` in its header, and the value of
`expandedProject === index && (<ProjectDetails>…</ProjectDetails>)`, where
`none` stands for `false` (React renders nothing for it). -/
structure ProjectItem where
  key : Nat
  ProjectName : List Child
  ExpandIcon : List Child
  ProjectDetails : Option (List DetailNode)
  deriving DecidableEq, Repr

/-- The method `Array.prototype.map` with a callback that takes the element and
its index; `start` is the index of the first element of `xs`. -/
def mapFrom {α β : Type} (f : α → Nat → β) : Nat → List α → List β
  | _, [] => []
  | start, x :: xs => f x start :: mapFrom f (start + 1) xs

/-! ## The component `NearbyProjects` (App.js, lines 82-117) -/

/-- The handler of line 91: the argument it passes to `setExpandedProject`,
`expandedProject === index ? null : index`. The hook state is `null` (`none`)
or an index. -/
def onClick (expandedProject : Option Nat) (index : Nat) : Option Nat :=
  if expandedProject = some index then none else some index

/-- The callback of `project.facilities.map` (lines 107-109). -/
def renderFacility (facility : Facility) (i : Nat) : FacilityItem :=
  { key := i
    children := [Child.expr facility.name, Child.text " (",
                 Child.expr facility.distance, Child.text " m away)"] }

/-- The expression `project.facilities && project.facilities.map(...)` of
line 107: a falsy left operand is the value of `&&`; an array is truthy, even
when empty. -/
def renderFacilities : FacilitiesField → FacilitiesChildren
  | FacilitiesField.undefined => FacilitiesChildren.undefined
  | FacilitiesField.null => FacilitiesChildren.null
  | FacilitiesField.array fs => FacilitiesChildren.items (mapFrom renderFacility 0 fs)

/-- The children of `<ProjectDetails>` (lines 98-110). -/
def renderDetails (project : Project) : List DetailNode :=
  [ DetailNode.ProjectDetail [Child.text "Distance: ", Child.expr project.distance, Child.text " m"],
    DetailNode.ProjectDetail [Child.text "Categories: ", Child.expr project.categories],
    DetailNode.ProjectDetail [Child.text "Address: ", Child.expr project.address],
    DetailNode.ProjectDetail [Child.text "Postcode: ", Child.expr project.postcode],
    DetailNode.ProjectDetail [Child.text "Country: ", Child.expr project.country],
    DetailNode.ProjectDetail
      [Child.text "Developer Reputation: ", Child.expr project.developer_reputation],
    DetailNode.ProjectDetail
      [Child.text "Air Quality Index: ",
       Child.expr (JSValue.or project.aqi (JSValue.string "Unknown"))],
    DetailNode.FacilitiesTitle [Child.text "Nearby Facilities:"],
    DetailNode.FacilitiesList (renderFacilities project.facilities) ]

/-- The callback of `projects.map` (lines 88-114). -/
def renderProject (expandedProject : Option Nat) (project : Project) (index : Nat) :
    ProjectItem :=
  { key := index
    ProjectName := [Child.expr project.name]
    ExpandIcon := [Child.expr (JSValue.string (if expandedProject = some index then "▲" else "▼"))]
    ProjectDetails := if expandedProject = some index then some (renderDetails project) else none }

/-- The render function of `NearbyProjects`: the project items below the title,
for the props `projects` and the hook state `expandedProject`. -/
def NearbyProjects (projects : List Project) (expandedProject : Option Nat) :
    List ProjectItem :=
  mapFrom (renderProject expandedProject) 0 projects

/-- An item is rendered expanded when its details are rendered. -/
def ProjectItem.expanded (item : ProjectItem) : Bool :=
  item.ProjectDetails.isSome

/-- The hook state of `NearbyProjects` after a sequence of header clicks, from
the initial state `useState(null)`. -/
def afterClicks (clicks : List Nat) : Option Nat :=
  clicks.foldl onClick none

/-- The facility items a detail node holds. -/
def DetailNode.facilityItems : DetailNode → List FacilityItem
  | DetailNode.FacilitiesList (FacilitiesChildren.items xs) => xs
  | _ => []

/-- Whether a detail node is the facilities heading. -/
def DetailNode.isFacilitiesTitle : DetailNode → Bool
  | DetailNode.FacilitiesTitle _ => true
  | _ => false

/-- Whether a detail node is the facilities list element. -/
def DetailNode.isFacilitiesList : DetailNode → Bool
  | DetailNode.FacilitiesList _ => true
  | _ => false

/-- The air-quality line of the expanded detail: the children of the
`<ProjectDetail>` that starts with the text `Air Quality Index: `. -/
def aqiLine (project : Project) : List Child :=
  (renderDetails project).filterMap fun d =>
    match d with
    | DetailNode.ProjectDetail (Child.text "Air Quality Index: " :: [c]) => some c
    | _ => none

/-! ## The handler `handleSubmit` of `App` (App.js, lines 13-38) -/

/-- The configured base URL (line 5). -/
def API_URL : String := "http://localhost:8000"

/-- An `Error` object: the value a `throw` statement throws or a promise
rejects with. `fetch` and `response.json()` reject with `Error` objects
(`TypeError`, `SyntaxError`, `DOMException`), whose `message` is a string. -/
structure JSError where
  message : String
  deriving DecidableEq, Repr

/-- How an awaited promise settles. -/
inductive Settled (α : Type) where
  | fulfilled (value : α)
  | rejected (err : JSError)
  deriving DecidableEq, Repr

/-- The value of `JSON.stringify(object)` for an object literal, kept as the
encoded object: the list of its properties, in order. -/
inductive RequestBody where
  | JSON_stringify (object : List (String × JSValue))
  deriving DecidableEq, Repr

/-- The two arguments of the call of `fetch` (lines 19-25). -/
structure Request where
  url : String
  method : String
  headers : List (String × String)
  body : RequestBody
  deriving DecidableEq, Repr

/-- The response `fetch` resolves with: its HTTP status, and how the promise
of `response.json()` settles when the body is read; `α` is the type of parsed
bodies. -/
structure Response (α : Type) where
  status : Nat
  json : Settled α
  deriving DecidableEq, Repr

/-- The property `response.ok` of the Fetch API: the status is in the range
200-299. -/
def Response.ok {α : Type} (response : Response α) : Bool :=
  decide (200 ≤ response.status) && decide (response.status ≤ 299)

/-- The effects `handleSubmit` performs, in the order of the source: the calls
of the state setters, the call of `fetch`, and the call of `response.json()`. -/
inductive Effect (α : Type) where
  | preventDefault
  | setLoading (value : Bool)
  | setError (value : Option String)
  | fetch (request : Request)
  | json
  | setAnalysis (data : α)
  deriving DecidableEq, Repr

/-- A run of a block of statements: the effects it performed, and the
exception it completed with, if any. -/
structure Run (α : Type) where
  effects : List (Effect α)
  thrown : Option JSError
  deriving DecidableEq, Repr

/-- Sequencing of statements: `next` runs only when `first` completed without
an exception. -/
def Run.andThen {α : Type} (first next : Run α) : Run α :=
  match first.thrown with
  | some err => { effects := first.effects, thrown := some err }
  | none => { effects := first.effects ++ next.effects, thrown := next.thrown }

/-- The statement `try { … } catch (err) { … } finally { … }`: the catch
clause runs when the try block throws, the finally clause always runs last,
and an exception of the finally clause replaces the pending one. -/
def tryCatchFinally {α : Type} (tryBlock : Run α) (catchClause : JSError → Run α)
    (finallyClause : Run α) : Run α :=
  let guarded : Run α :=
    match tryBlock.thrown with
    | none => tryBlock
    | some err =>
        { effects := tryBlock.effects ++ (catchClause err).effects
          thrown := (catchClause err).thrown }
  { effects := guarded.effects ++ finallyClause.effects
    thrown :=
      match finallyClause.thrown with
      | some err => some err
      | none => guarded.thrown }

/-- The request of lines 19-25. -/
def analyzeRequest (placeName : String) : Request :=
  { url := API_URL ++ "/analyze"
    method := "POST"
    headers := [("Content-Type", "application/json")]
    body := RequestBody.JSON_stringify [("place_name", JSValue.string placeName)] }

/-- The try block (lines 19-32), for the way the promise of `fetch` settles. -/
def tryBlock {α : Type} (placeName : String) (result : Settled (Response α)) : Run α :=
  match result with
  | Settled.rejected err =>
      { effects := [Effect.fetch (analyzeRequest placeName)], thrown := some err }
  | Settled.fulfilled response =>
      if !response.ok then
        { effects := [Effect.fetch (analyzeRequest placeName)]
          thrown := some { message := "Failed to fetch analysis" } }
      else
        match response.json with
        | Settled.rejected err =>
            { effects := [Effect.fetch (analyzeRequest placeName), Effect.json]
              thrown := some err }
        | Settled.fulfilled data =>
            { effects := [Effect.fetch (analyzeRequest placeName), Effect.json,
                          Effect.setAnalysis data]
              thrown := none }

/-- The catch clause (line 34): `setError(err.message)`. -/
def catchClause {α : Type} (err : JSError) : Run α :=
  { effects := [Effect.setError (some err.message)], thrown := none }

/-- The finally clause (line 36): `setLoading(false)`. -/
def finallyClause {α : Type} : Run α :=
  { effects := [Effect.setLoading false], thrown := none }

/-- One run of `handleSubmit` (lines 13-38), for the `placeName` of the
render it closes over and the way the promise of `fetch` settles. -/
def handleSubmit {α : Type} (placeName : String) (result : Settled (Response α)) : Run α :=
  Run.andThen
    { effects := [Effect.preventDefault, Effect.setLoading true, Effect.setError none]
      thrown := none }
    (tryCatchFinally (tryBlock placeName result) catchClause finallyClause)

/-- The state of `App` (lines 8-11); `none` stands for `null`. -/
structure AppState (α : Type) where
  placeName : String
  analysis : Option α
  loading : Bool
  error : Option String
  deriving DecidableEq, Repr

/-- The initial values of the four `useState` hooks of `App`. -/
def AppState.initial {α : Type} : AppState α :=
  { placeName := "", analysis := none, loading := false, error := none }

/-- The state update an effect performs. -/
def AppState.apply {α : Type} (s : AppState α) : Effect α → AppState α
  | Effect.setLoading value => { s with loading := value }
  | Effect.setError value => { s with error := value }
  | Effect.setAnalysis data => { s with analysis := some data }
  | Effect.preventDefault => s
  | Effect.fetch _ => s
  | Effect.json => s

/-- The state of `App` once a run of `handleSubmit` started in state `s` has
settled: its state updates applied in order. -/
def settle {α : Type} (s : AppState α) (result : Settled (Response α)) : AppState α :=
  (handleSubmit s.placeName result).effects.foldl AppState.apply s

/-- Whether an effect is a state update. -/
def Effect.isStateUpdate {α : Type} : Effect α → Bool
  | Effect.setLoading _ => true
  | Effect.setError _ => true
  | Effect.setAnalysis _ => true
  | _ => false

/-- Whether an effect is a network request. -/
def Effect.isFetch {α : Type} : Effect α → Bool
  | Effect.fetch _ => true
  | _ => false

/-- Whether an effect reads the response body. -/
def Effect.isBodyRead {α : Type} : Effect α → Bool
  | Effect.json => true
  | _ => false

/-! ## The page: `App`, its suspended submissions, and the mounted `NearbyProjects`
(App.js, lines 13-38, 63-69, 91) -/

/-- Whether an effect is followed by an `await`: the handler is suspended on the
promise of `fetch(...)` (line 19) and on the promise of `response.json()`
(line 31), and other events of the page are handled in between. -/
def Effect.isAwait {α : Type} : Effect α → Bool
  | Effect.fetch _ => true
  | Effect.json => true
  | _ => false

/-- The effects a handler performs until it is suspended: up to, and with, the
first call that is awaited. -/
def untilAwait {α : Type} : List (Effect α) → List (Effect α)
  | [] => []
  | effect :: effects =>
      if effect.isAwait then [effect] else effect :: untilAwait effects

/-- The effects left to a handler once the promise it is suspended on has
settled: those after the first call that is awaited. -/
def afterAwait {α : Type} : List (Effect α) → List (Effect α)
  | [] => []
  | effect :: effects =>
      if effect.isAwait then effects else afterAwait effects

/-- The state of the page: the state of `App`, the hook state
`expandedProject` of the mounted `NearbyProjects` instance (`none` when no
instance is mounted), and, for each run of `handleSubmit` that is suspended at
an `await`, the effects it has left. -/
structure UI where
  app : AppState AnalysisResult
  expandedProject : Option (Option Nat)
  inFlight : List (List (Effect AnalysisResult))
  deriving DecidableEq, Repr

/-- The page before any event: nothing is displayed, no request is in flight. -/
def UI.initial : UI :=
  { app := AppState.initial, expandedProject := none, inFlight := [] }

/-- A render of `App` with the new state `app`: line 63 renders
`<NearbyProjects>` exactly when `analysis` is truthy (a parsed result object
is). React keeps the hook state of an instance that is rendered again at the
same place, runs `useState(null)` for an instance it mounts, and drops the
state of an instance that is no longer rendered. -/
def UI.render (ui : UI) (app : AppState AnalysisResult) : UI :=
  { app := app
    expandedProject :=
      match app.analysis with
      | none => none
      | some _ =>
          match ui.expandedProject with
          | some expandedProject => some expandedProject
          | none => some none
    inFlight := ui.inFlight }

/-- The page after a handler has performed `effects`, with a render after each
state update. -/
def UI.perform (ui : UI) (effects : List (Effect AnalysisResult)) : UI :=
  effects.foldl (fun u effect => u.render (u.app.apply effect)) ui

/-- The events of the page: typing in the input, submitting the form (with the
way the promise of `fetch` will settle), the settlement of the promise that
the suspended run number `run` awaits, and a click on the header of the
nearby-project item `index`. -/
inductive UIEvent where
  | change (value : String)
  | submit (result : Settled (Response AnalysisResult))
  | resume (run : Nat)
  | click (index : Nat)
  deriving DecidableEq, Repr

/-- Whether an event is a click on a header. -/
def UIEvent.isClick : UIEvent → Bool
  | UIEvent.click _ => true
  | _ => false

/-- The page after an event.
* A submission starts a run of `handleSubmit` with the current `placeName`;
  the run performs its effects up to the call of `fetch` and is suspended.
* When the promise a suspended run awaits settles, the run performs its
  effects up to its next `await`, or to its end.
* A click on the header of item `index` has an effect when that header is
  rendered; line 91 does not look at `loading`, so headers can be clicked
  while a run is suspended. -/
def UI.step (ui : UI) : UIEvent → UI
  | UIEvent.change value => ui.render { ui.app with placeName := value }
  | UIEvent.submit result =>
      { ui.perform (untilAwait (handleSubmit ui.app.placeName result).effects) with
        inFlight :=
          ui.inFlight ++ [afterAwait (handleSubmit ui.app.placeName result).effects] }
  | UIEvent.resume run =>
      match ui.inFlight[run]? with
      | none => ui
      | some effects =>
          { ui.perform (untilAwait effects) with
            inFlight :=
              if (afterAwait effects).isEmpty then ui.inFlight.eraseIdx run
              else ui.inFlight.set run (afterAwait effects) }
  | UIEvent.click index =>
      match ui.app.analysis, ui.expandedProject with
      | some analysis, some expandedProject =>
          if index < analysis.nearby_projects.length then
            { ui with expandedProject := some (onClick expandedProject index) }
          else ui
      | _, _ => ui

/-- The page after a sequence of events, from the page `ui`. -/
def UI.after (ui : UI) (events : List UIEvent) : UI :=
  events.foldl UI.step ui

/-- The page after a sequence of events, from the initial page. -/
def UI.run (events : List UIEvent) : UI :=
  UI.initial.after events

/-- The nearby-project items the page displays (lines 63-66). -/
def UI.nearbyItems (ui : UI) : List ProjectItem :=
  match ui.app.analysis, ui.expandedProject with
  | some analysis, some expandedProject =>
      NearbyProjects analysis.nearby_projects expandedProject
  | _, _ => []

/-- The facility items among the children of `<ProjectDetails>`, in order. -/
def facilityItemsOf : List DetailNode → List FacilityItem
  | [] => []
  | d :: ds => d.facilityItems ++ facilityItemsOf ds

/-! ## Sample data -/

/-- A main project: it has none of the optional properties. -/
def tower : Project :=
  { name := JSValue.string "Tower"
    coordinates := [JSValue.number 48, JSValue.number 2]
    aqi := JSValue.number 42
    distance := JSValue.undefined
    categories := JSValue.undefined
    address := JSValue.undefined
    postcode := JSValue.undefined
    country := JSValue.undefined
    developer_reputation := JSValue.undefined
    facilities := FacilitiesField.undefined }

/-- A nearby project with an empty facilities array and no `aqi`. -/
def plaza : Project :=
  { tower with
    name := JSValue.string "Plaza"
    coordinates := []
    aqi := JSValue.undefined
    distance := JSValue.number 120
    categories := JSValue.string "retail"
    facilities := FacilitiesField.array [] }

/-- A nearby project with two facilities and an air-quality index of 0. -/
def arcade : Project :=
  { plaza with
    name := JSValue.string "Arcade"
    aqi := JSValue.number 0
    distance := JSValue.number 300
    facilities := FacilitiesField.array
      [ { name := JSValue.string "School", distance := JSValue.number 50 },
        { name := JSValue.string "Clinic", distance := JSValue.number 75 } ] }

/-- A result with one nearby project. -/
def parisResult : AnalysisResult :=
  { main_project := tower, nearby_projects := [plaza], analysis := JSValue.string "**Good**" }

/-- A result with two nearby projects. -/
def lyonResult : AnalysisResult :=
  { main_project := tower, nearby_projects := [arcade, plaza], analysis := JSValue.string "Fair" }

/-- Another result with two nearby projects. -/
def niceResult : AnalysisResult :=
  { main_project := tower, nearby_projects := [plaza, arcade], analysis := JSValue.string "Calm" }

/-- A state of `App` after an earlier success and a later failure. -/
def sampleState : AppState AnalysisResult :=
  { placeName := "Paris"
    analysis := some parisResult
    loading := false
    error := some "Failed to fetch analysis" }

/-- A response with status 404. -/
def notFound : Response AnalysisResult :=
  { status := 404, json := Settled.rejected { message := "Unexpected token" } }

/-- A response with status 200 whose body parses to `data`. -/
def okResponse (data : AnalysisResult) : Response AnalysisResult :=
  { status := 200, json := Settled.fulfilled data }

/-- A network-level failure, with the message one browser gives it. -/
def networkError : JSError :=
  { message := "NetworkError when attempting to fetch resource." }

end RealEstateFrontend


namespace RealEstateFrontend

/-! ## Lemmas on `mapFrom` -/

theorem length_mapFrom {α β : Type} (f : α → Nat → β) (start : Nat) (xs : List α) :
    (mapFrom f start xs).length = xs.length := by
  induction xs generalizing start with
  | nil => rfl
  | cons x xs ih => simp [mapFrom, ih]

theorem getElem?_mapFrom {α β : Type} (f : α → Nat → β) (start : Nat) (xs : List α)
    (k : Nat) :
    (mapFrom f start xs)[k]? = (xs[k]?).map (fun x => f x (start + k)) := by
  induction xs generalizing start k with
  | nil => simp [mapFrom]
  | cons x xs ih =>
      cases k with
      | zero => simp [mapFrom]
      | succ k =>
          simp only [mapFrom, List.getElem?_cons_succ, ih]
          congr 1
          funext y
          congr 1
          omega

/-! ## Lemmas on the render function of `NearbyProjects` -/

theorem expanded_renderProject (e : Option Nat) (project : Project) (index : Nat) :
    (renderProject e project index).expanded = true ↔ e = some index := by
  unfold ProjectItem.expanded renderProject
  by_cases h : e = some index <;> simp [h]

theorem filter_expanded_of_lt (e : Option Nat) (start : Nat) (projects : List Project)
    (h : ∀ k, e = some k → k < start) :
    (mapFrom (renderProject e) start projects).filter ProjectItem.expanded = [] := by
  induction projects generalizing start with
  | nil => rfl
  | cons x xs ih =>
      have hx : (renderProject e x start).expanded = false := by
        cases hb : (renderProject e x start).expanded with
        | false => rfl
        | true =>
            have := h start ((expanded_renderProject e x start).1 hb)
            omega
      have ht := ih (start + 1) (fun k hk => Nat.lt_succ_of_lt (h k hk))
      simp [mapFrom, hx, ht]

theorem filter_expanded_length_le (e : Option Nat) (start : Nat) (projects : List Project) :
    ((mapFrom (renderProject e) start projects).filter ProjectItem.expanded).length ≤ 1 := by
  induction projects generalizing start with
  | nil => simp [mapFrom]
  | cons x xs ih =>
      cases hb : (renderProject e x start).expanded with
      | false =>
          have := ih (start + 1)
          simpa [mapFrom, hb] using this
      | true =>
          have he : e = some start := (expanded_renderProject e x start).1 hb
          have ht := filter_expanded_of_lt e (start + 1) xs (fun k hk => by
            rw [he] at hk
            cases hk
            omega)
          simp [mapFrom, hb, ht]

theorem expanded_item_iff (projects : List Project) (e : Option Nat) (k : Nat)
    (item : ProjectItem) (h : (NearbyProjects projects e)[k]? = some item) :
    item.expanded = true ↔ e = some k := by
  unfold NearbyProjects at h
  rw [getElem?_mapFrom] at h
  cases hp : projects[k]? with
  | none => simp [hp] at h
  | some project =>
      simp only [hp, Option.map_some', Nat.zero_add, Option.some.injEq] at h
      rw [← h]
      exact expanded_renderProject e project k

/-! ## Claims on `NearbyProjects` -/

/-- C1: clicking the header of item `i` passes to `setExpandedProject` the value
`null` when `i` is the expanded index, and `i` otherwise, both when nothing is
expanded and when another item `j` is (which then is no longer the expanded
index). -/
theorem onClick_toggle (e : Option Nat) (i : Nat) :
    (e = some i → onClick e i = none) ∧
    (e ≠ some i → onClick e i = some i) ∧
    onClick none i = some i ∧
    (∀ j, j ≠ i → onClick (some j) i = some i ∧ onClick (some j) i ≠ some j) := by
  refine ⟨fun h => by simp [onClick, h], fun h => by simp [onClick, h], by simp [onClick], ?_⟩
  intro j hj
  have hne : ¬ (j = i) := hj
  constructor
  · simp [onClick, hne]
  · simp only [onClick, Option.some.injEq, hne, if_false, ne_eq]
    exact fun h => hj h.symm

/-- C2: for every project list and every sequence of header clicks from the
initial state, every project has its item, the item at index `k` is rendered
expanded exactly when the expanded index is `k`, and at most one item is
rendered expanded. -/
theorem single_expansion (projects : List Project) (clicks : List Nat) :
    (NearbyProjects projects (afterClicks clicks)).length = projects.length ∧
    (∀ k item, (NearbyProjects projects (afterClicks clicks))[k]? = some item →
      (item.expanded = true ↔ afterClicks clicks = some k)) ∧
    ((NearbyProjects projects (afterClicks clicks)).filter ProjectItem.expanded).length ≤ 1 :=
  ⟨length_mapFrom _ _ _,
   fun k item h => expanded_item_iff projects (afterClicks clicks) k item h,
   filter_expanded_length_le (afterClicks clicks) 0 projects⟩

end RealEstateFrontend

namespace RealEstateFrontend

/-! ## The runs of `handleSubmit`, outcome by outcome -/

theorem ok_iff {α : Type} (response : Response α) :
    response.ok = true ↔ 200 ≤ response.status ∧ response.status ≤ 299 := by
  simp [Response.ok]

theorem ok_eq_false_of_not {α : Type} (response : Response α)
    (h : ¬ (200 ≤ response.status ∧ response.status ≤ 299)) : response.ok = false := by
  cases hb : response.ok with
  | false => rfl
  | true => exact absurd ((ok_iff response).1 hb) h

theorem handleSubmit_rejected {α : Type} (placeName : String) (err : JSError) :
    handleSubmit placeName (Settled.rejected err : Settled (Response α)) =
      { effects := [Effect.preventDefault, Effect.setLoading true, Effect.setError none,
                    Effect.fetch (analyzeRequest placeName),
                    Effect.setError (some err.message), Effect.setLoading false]
        thrown := none } := by
  simp [handleSubmit, Run.andThen, tryCatchFinally, tryBlock, catchClause, finallyClause]

theorem handleSubmit_not_ok {α : Type} (placeName : String) (response : Response α)
    (h : response.ok = false) :
    handleSubmit placeName (Settled.fulfilled response) =
      { effects := [Effect.preventDefault, Effect.setLoading true, Effect.setError none,
                    Effect.fetch (analyzeRequest placeName),
                    Effect.setError (some "Failed to fetch analysis"),
                    Effect.setLoading false]
        thrown := none } := by
  simp [handleSubmit, Run.andThen, tryCatchFinally, tryBlock, catchClause, finallyClause, h]

theorem handleSubmit_json_rejected {α : Type} (placeName : String) (response : Response α)
    (err : JSError) (h : response.ok = true) (hj : response.json = Settled.rejected err) :
    handleSubmit placeName (Settled.fulfilled response) =
      { effects := [Effect.preventDefault, Effect.setLoading true, Effect.setError none,
                    Effect.fetch (analyzeRequest placeName), Effect.json,
                    Effect.setError (some err.message), Effect.setLoading false]
        thrown := none } := by
  simp [handleSubmit, Run.andThen, tryCatchFinally, tryBlock, catchClause, finallyClause, h, hj]

theorem handleSubmit_success {α : Type} (placeName : String) (response : Response α)
    (data : α) (h : response.ok = true) (hj : response.json = Settled.fulfilled data) :
    handleSubmit placeName (Settled.fulfilled response) =
      { effects := [Effect.preventDefault, Effect.setLoading true, Effect.setError none,
                    Effect.fetch (analyzeRequest placeName), Effect.json,
                    Effect.setAnalysis data, Effect.setLoading false]
        thrown := none } := by
  simp [handleSubmit, Run.andThen, tryCatchFinally, tryBlock, catchClause, finallyClause, h, hj]

/-- The four shapes a run of `handleSubmit` can have. -/
theorem handleSubmit_cases {α : Type} (placeName : String) (result : Settled (Response α)) :
    ∃ middle : List (Effect α),
      handleSubmit placeName result =
        { effects := [Effect.preventDefault, Effect.setLoading true, Effect.setError none,
                      Effect.fetch (analyzeRequest placeName)] ++ middle ++
                     [Effect.setLoading false]
          thrown := none } ∧
      (∀ effect ∈ middle, effect.isFetch = false) := by
  cases result with
  | rejected err =>
      exact ⟨[Effect.setError (some err.message)], by simp [handleSubmit_rejected],
        by simp [Effect.isFetch]⟩
  | fulfilled response =>
      cases hok : response.ok with
      | false =>
          exact ⟨[Effect.setError (some "Failed to fetch analysis")],
            by simp [handleSubmit_not_ok _ _ hok], by simp [Effect.isFetch]⟩
      | true =>
          cases hj : response.json with
          | rejected err =>
              exact ⟨[Effect.json, Effect.setError (some err.message)],
                by simp [handleSubmit_json_rejected _ _ _ hok hj], by simp [Effect.isFetch]⟩
          | fulfilled data =>
              exact ⟨[Effect.json, Effect.setAnalysis data],
                by simp [handleSubmit_success _ _ _ hok hj], by simp [Effect.isFetch]⟩

theorem getLast?_filter_concat {α : Type} (p : α → Bool) (xs : List α) (a : α)
    (h : p a = true) : ((xs ++ [a]).filter p).getLast? = some a := by
  rw [List.filter_append]
  have hlast : [a].filter p = [a] := by simp [h]
  rw [hlast, List.getLast?_concat]

theorem loading_foldl_append_setLoading {α : Type} (s : AppState α) (effects : List (Effect α))
    (value : Bool) :
    ((effects ++ [Effect.setLoading value]).foldl AppState.apply s).loading = value := by
  simp [List.foldl_append, AppState.apply]

end RealEstateFrontend

namespace RealEstateFrontend

/-! ## Claims on `handleSubmit` -/

/-- C3: for every prior state (and so every place name), when the response has
a status outside 200-299, after the run `error` is the non-empty message of the
generic error, `analysis` is its prior value (null when it was null), and the
run never reads the response body. -/
theorem non2xx_sets_error_keeps_analysis {α : Type} (s : AppState α) (response : Response α)
    (h : ¬ (200 ≤ response.status ∧ response.status ≤ 299)) :
    (settle s (Settled.fulfilled response)).error = some "Failed to fetch analysis" ∧
    (∀ message, (settle s (Settled.fulfilled response)).error = some message → message ≠ "") ∧
    (settle s (Settled.fulfilled response)).analysis = s.analysis ∧
    (s.analysis = none → (settle s (Settled.fulfilled response)).analysis = none) ∧
    (∀ effect ∈ (handleSubmit s.placeName (Settled.fulfilled response)).effects,
      effect.isBodyRead = false) := by
  have hok := ok_eq_false_of_not response h
  have herr : (settle s (Settled.fulfilled response)).error =
      some "Failed to fetch analysis" := by
    simp [settle, handleSubmit_not_ok _ _ hok, AppState.apply]
  have han : (settle s (Settled.fulfilled response)).analysis = s.analysis := by
    simp [settle, handleSubmit_not_ok _ _ hok, AppState.apply]
  refine ⟨herr, ?_, han, fun hn => han.trans hn, ?_⟩
  · intro message hm
    rw [herr] at hm
    cases hm
    decide
  · simp [handleSubmit_not_ok _ _ hok, Effect.isBodyRead]

/-- Witness of C3: status 404 on a state with an earlier result. -/
theorem non2xx_sets_error_keeps_analysis_witness :
    (settle sampleState (Settled.fulfilled notFound)).error = some "Failed to fetch analysis" ∧
    (settle sampleState (Settled.fulfilled notFound)).analysis = some parisResult :=
  have h := non2xx_sets_error_keeps_analysis sampleState notFound (by decide)
  ⟨h.1, h.2.2.1⟩

/-- C4: for every prior state, also one with an error or an earlier result,
when the response has a status in 200-299 and its body parses to `b`, after the
run `analysis` is `b` itself and `error` is null. -/
theorem success_replaces_analysis {α : Type} (s : AppState α) (response : Response α) (b : α)
    (hok : 200 ≤ response.status ∧ response.status ≤ 299)
    (hb : response.json = Settled.fulfilled b) :
    (settle s (Settled.fulfilled response)).analysis = some b ∧
    (settle s (Settled.fulfilled response)).error = none := by
  have h := (ok_iff response).2 hok
  constructor <;> simp [settle, handleSubmit_success _ _ _ h hb, AppState.apply]

/-- Witness of C4: a success on a state that holds an error and an earlier
result. -/
theorem success_replaces_analysis_witness :
    sampleState.error ≠ none ∧ sampleState.analysis = some parisResult ∧
    (settle sampleState (Settled.fulfilled (okResponse lyonResult))).analysis = some lyonResult ∧
    (settle sampleState (Settled.fulfilled (okResponse lyonResult))).error = none :=
  have h := success_replaces_analysis sampleState (okResponse lyonResult) lyonResult
    (by decide) rfl
  ⟨by decide, rfl, h.1, h.2⟩

/-- C5: for every prior state and every way the network call settles, the run
calls `setLoading(true)` before `fetch`, its last effect (so its last state
update) is `setLoading(false)`, `loading` is false once it has settled, and
then `loading` and a non-null `error` do not hold together. -/
theorem loading_lifecycle {α : Type} (s : AppState α) (result : Settled (Response α)) :
    (∃ rest, (handleSubmit s.placeName result).effects =
        [Effect.preventDefault, Effect.setLoading true, Effect.setError none,
         Effect.fetch (analyzeRequest s.placeName)] ++ rest) ∧
    (∃ before, (handleSubmit s.placeName result).effects =
        before ++ [Effect.setLoading false]) ∧
    ((handleSubmit s.placeName result).effects.filter Effect.isStateUpdate).getLast? =
      some (Effect.setLoading false) ∧
    (settle s result).loading = false ∧
    ¬ ((settle s result).loading = true ∧ (settle s result).error ≠ none) := by
  obtain ⟨middle, hrun, _⟩ := handleSubmit_cases s.placeName result
  have hload : (settle s result).loading = false := by
    unfold settle
    rw [hrun]
    exact loading_foldl_append_setLoading s _ false
  refine ⟨⟨middle ++ [Effect.setLoading false], by simp [hrun]⟩, ⟨_, by rw [hrun]⟩, ?_, hload, ?_⟩
  · rw [hrun]
    exact getLast?_filter_concat Effect.isStateUpdate _ _ rfl
  · rw [hload]
    simp

/-- C9: for every place name `p` and every way the network call settles, the
run calls `fetch` exactly once, with the URL `API_URL` followed by `/analyze`,
the method POST, the JSON content-type header, and as body the JSON encoding of
the object whose only property is `place_name`, with value `p`. -/
theorem single_post_request {α : Type} (p : String) (result : Settled (Response α)) :
    (handleSubmit p result).effects.filter Effect.isFetch =
      [Effect.fetch
        { url := API_URL ++ "/analyze"
          method := "POST"
          headers := [("Content-Type", "application/json")]
          body := RequestBody.JSON_stringify [("place_name", JSValue.string p)] }] := by
  obtain ⟨middle, hrun, hmid⟩ := handleSubmit_cases p result
  have hfilter : middle.filter Effect.isFetch = [] := by
    rw [List.filter_eq_nil_iff]
    intro effect he
    simp [hmid effect he]
  rw [hrun]
  simp [List.filter_append, hfilter, Effect.isFetch, analyzeRequest]

end RealEstateFrontend

namespace RealEstateFrontend

/-- C6, as stated, fails: a network-level failure and a non-2xx response leave
two different strings in `error`, the message of the rejection and the message
of the generic error. -/
theorem failure_messages_differ :
    (settle sampleState (Settled.rejected networkError)).error =
      some "NetworkError when attempting to fetch resource." ∧
    (settle sampleState (Settled.fulfilled notFound)).error =
      some "Failed to fetch analysis" ∧
    (settle sampleState (Settled.rejected networkError)).error ≠
      (settle sampleState (Settled.fulfilled notFound)).error := by
  decide

/-- C6, amended: every run of `handleSubmit` completes without an exception;
a network-level failure is caught and sets `error` to the message of the
rejection, and a non-2xx response is caught and sets `error` to the message of
the generic error, `Failed to fetch analysis`. -/
theorem failure_caught {α : Type} (s : AppState α) (err : JSError) (response : Response α)
    (h : ¬ (200 ≤ response.status ∧ response.status ≤ 299)) :
    (∀ result : Settled (Response α), (handleSubmit s.placeName result).thrown = none) ∧
    (settle s (Settled.rejected err)).error = some err.message ∧
    (settle s (Settled.fulfilled response)).error = some "Failed to fetch analysis" := by
  have hok := ok_eq_false_of_not response h
  refine ⟨fun result => ?_, ?_, ?_⟩
  · obtain ⟨middle, hrun, _⟩ := handleSubmit_cases s.placeName result
    rw [hrun]
  · simp [settle, handleSubmit_rejected, AppState.apply]
  · simp [settle, handleSubmit_not_ok _ _ hok, AppState.apply]

/-- Witness of C6, amended: a network error and a status 404. -/
theorem failure_caught_witness :
    (handleSubmit sampleState.placeName (Settled.fulfilled notFound)).thrown = none ∧
    (settle sampleState (Settled.rejected networkError)).error = some networkError.message ∧
    (settle sampleState (Settled.fulfilled notFound)).error = some "Failed to fetch analysis" :=
  have h := failure_caught sampleState networkError notFound (by decide)
  ⟨h.1 _, h.2.1, h.2.2⟩

/-! ## Claims on the expanded detail -/

/-- The air-quality line shows `project.aqi` when it is truthy and the text
`Unknown` when it is falsy. -/
theorem aqiLine_eq (project : Project) :
    aqiLine project =
      [Child.expr (if project.aqi.truthy = true then project.aqi else JSValue.string "Unknown")] := by
  simp [aqiLine, renderDetails, JSValue.or]

/-- C7 fails on the code at an air-quality index of 0: the index is present,
and the air-quality line shows the text `Unknown`. -/
theorem aqi_zero_shows_unknown :
    arcade.aqi = JSValue.number 0 ∧
    aqiLine arcade = [Child.expr (JSValue.string "Unknown")] := by
  decide

theorem getElem?_renderFacilities (fs : List Facility) (i : Nat) (facility : Facility)
    (h : fs[i]? = some facility) :
    (mapFrom renderFacility 0 fs)[i]? =
      some (renderFacility facility i) := by
  rw [getElem?_mapFrom, h]
  simp

/-- C8, as stated, fails: the expanded detail of a project with an empty
facilities array holds the facilities heading and the facilities list
element. -/
theorem empty_facilities_keeps_section :
    plaza.facilities = FacilitiesField.array [] ∧
    (NearbyProjects [plaza] (afterClicks [0])).map ProjectItem.ProjectDetails =
      [some (renderDetails plaza)] ∧
    (renderDetails plaza).filter DetailNode.isFacilitiesTitle =
      [DetailNode.FacilitiesTitle [Child.text "Nearby Facilities:"]] ∧
    (renderDetails plaza).filter DetailNode.isFacilitiesList =
      [DetailNode.FacilitiesList (FacilitiesChildren.items [])] := by
  decide

/-- C8, amended: the expanded detail of every project holds the facilities
heading and one facilities list element; when `facilities` is missing, null or
an empty array the list holds no facility item; when `facilities` is an array
of `n` entries the list holds `n` facility items, the item at index `i` showing
the name and the distance of entry `i`. -/
theorem facilities_section (project : Project) :
    (renderDetails project).filter DetailNode.isFacilitiesTitle =
      [DetailNode.FacilitiesTitle [Child.text "Nearby Facilities:"]] ∧
    (renderDetails project).filter DetailNode.isFacilitiesList =
      [DetailNode.FacilitiesList (renderFacilities project.facilities)] ∧
    (project.facilities = FacilitiesField.undefined ∨
      project.facilities = FacilitiesField.null ∨
      project.facilities = FacilitiesField.array [] →
        facilityItemsOf (renderDetails project) = []) ∧
    (∀ fs, project.facilities = FacilitiesField.array fs →
      (facilityItemsOf (renderDetails project)).length = fs.length ∧
      ∀ i facility, fs[i]? = some facility →
        (facilityItemsOf (renderDetails project))[i]? =
          some (FacilityItem.mk i
            [Child.expr facility.name, Child.text " (",
             Child.expr facility.distance, Child.text " m away)"])) := by
  refine ⟨by simp [renderDetails, DetailNode.isFacilitiesTitle],
    by simp [renderDetails, DetailNode.isFacilitiesList], ?_, ?_⟩
  · rintro (h | h | h) <;>
      simp [renderDetails, facilityItemsOf, DetailNode.facilityItems, renderFacilities, h, mapFrom]
  · intro fs h
    have hitems : facilityItemsOf (renderDetails project) = mapFrom renderFacility 0 fs := by
      simp [renderDetails, facilityItemsOf, DetailNode.facilityItems, renderFacilities, h]
    rw [hitems]
    exact ⟨length_mapFrom _ _ _, fun i facility hi => getElem?_renderFacilities fs i facility hi⟩

end RealEstateFrontend

namespace RealEstateFrontend

/-! ## The expanded index across the events of the page -/

/-- The remaining effects of a successful run, once `response.json()` has
settled to `b`: `setAnalysis(b)`, then `setLoading(false)`. -/
theorem success_continuation (placeName : String) (response : Response AnalysisResult)
    (b : AnalysisResult) (hok : 200 ≤ response.status ∧ response.status ≤ 299)
    (hb : response.json = Settled.fulfilled b) :
    afterAwait (afterAwait (handleSubmit placeName (Settled.fulfilled response)).effects) =
      [Effect.setAnalysis b, Effect.setLoading false] := by
  rw [handleSubmit_success _ _ _ ((ok_iff response).2 hok) hb]
  simp [afterAwait, Effect.isAwait]

theorem render_mounted_iff (ui : UI) (app : AppState AnalysisResult) :
    (ui.render app).expandedProject.isSome = (ui.render app).app.analysis.isSome := by
  unfold UI.render
  cases app.analysis with
  | none => rfl
  | some a =>
      cases ui.expandedProject with
      | none => rfl
      | some e => rfl

theorem perform_mounted_iff (effects : List (Effect AnalysisResult)) (ui : UI)
    (h : ui.expandedProject.isSome = ui.app.analysis.isSome) :
    (ui.perform effects).expandedProject.isSome = (ui.perform effects).app.analysis.isSome := by
  unfold UI.perform
  induction effects generalizing ui with
  | nil => exact h
  | cons effect effects ih => exact ih _ (render_mounted_iff _ _)

theorem apply_analysis_ne_none (s : AppState AnalysisResult) (effect : Effect AnalysisResult)
    (h : s.analysis ≠ none) : (s.apply effect).analysis ≠ none := by
  cases effect <;> simp [AppState.apply, h]

/-- A handler leaves the expanded index of a mounted list as it is. -/
theorem perform_keeps_index (effects : List (Effect AnalysisResult)) (ui : UI) (e : Option Nat)
    (he : ui.expandedProject = some e) (ha : ui.app.analysis ≠ none) :
    (ui.perform effects).expandedProject = some e ∧ (ui.perform effects).app.analysis ≠ none := by
  unfold UI.perform
  induction effects generalizing ui with
  | nil => exact ⟨he, ha⟩
  | cons effect effects ih =>
      have hne := apply_analysis_ne_none ui.app effect ha
      apply ih (ui.render (ui.app.apply effect))
      · unfold UI.render
        cases hx : (ui.app.apply effect).analysis with
        | none => exact absurd hx hne
        | some a => simp [he]
      · exact hne

theorem step_mounted_iff (ui : UI) (event : UIEvent)
    (h : ui.expandedProject.isSome = ui.app.analysis.isSome) :
    (ui.step event).expandedProject.isSome = (ui.step event).app.analysis.isSome := by
  cases event with
  | change value => exact render_mounted_iff _ _
  | submit result => exact perform_mounted_iff _ ui h
  | resume run =>
      simp only [UI.step]
      cases ui.inFlight[run]? with
      | none => exact h
      | some effects => exact perform_mounted_iff _ ui h
  | click index =>
      simp only [UI.step]
      cases ha : ui.app.analysis with
      | none => simpa [ha] using h
      | some a =>
          cases he : ui.expandedProject with
          | none => simp [ha, he] at h
          | some e =>
              by_cases hi : index < a.nearby_projects.length <;> simp [hi, ha, he]

theorem after_mounted_iff (events : List UIEvent) (ui : UI)
    (h : ui.expandedProject.isSome = ui.app.analysis.isSome) :
    (ui.after events).expandedProject.isSome = (ui.after events).app.analysis.isSome := by
  unfold UI.after
  induction events generalizing ui with
  | nil => exact h
  | cons event events ih => exact ih _ (step_mounted_iff ui event h)

/-- In every page reachable from the initial page, a `NearbyProjects` instance
is mounted exactly when `analysis` is not null. -/
theorem run_mounted_iff (events : List UIEvent) :
    (UI.run events).expandedProject.isSome = (UI.run events).app.analysis.isSome :=
  after_mounted_iff events UI.initial rfl

/-- An event that is not a click leaves the expanded index of a mounted list
as it is. -/
theorem step_keeps_index (ui : UI) (event : UIEvent) (e : Option Nat)
    (hc : event.isClick = false)
    (he : ui.expandedProject = some e) (ha : ui.app.analysis ≠ none) :
    (ui.step event).expandedProject = some e ∧ (ui.step event).app.analysis ≠ none := by
  cases event with
  | change value =>
      simp only [UI.step, UI.render]
      cases hx : ui.app.analysis with
      | none => exact absurd hx ha
      | some a => simp [he]
  | submit result => exact perform_keeps_index _ ui e he ha
  | resume run =>
      simp only [UI.step]
      cases ui.inFlight[run]? with
      | none => exact ⟨he, ha⟩
      | some effects => exact perform_keeps_index _ ui e he ha
  | click index => simp [UIEvent.isClick] at hc

theorem after_keeps_index (events : List UIEvent) (ui : UI) (e : Option Nat)
    (hc : ∀ event ∈ events, event.isClick = false)
    (he : ui.expandedProject = some e) (ha : ui.app.analysis ≠ none) :
    (ui.after events).expandedProject = some e ∧ (ui.after events).app.analysis ≠ none := by
  unfold UI.after
  induction events generalizing ui with
  | nil => exact ⟨he, ha⟩
  | cons event events ih =>
      have hs := step_keeps_index ui event e (hc event (List.mem_cons_self _ _)) he ha
      exact ih _ (fun ev hev => hc ev (List.mem_cons_of_mem _ hev)) hs.1 hs.2

/-- The item at index `k` of the displayed list is rendered expanded exactly
when the hook state of the mounted list is `k`. -/
theorem nearbyItems_expanded_iff (ui : UI) (k : Nat) (item : ProjectItem)
    (h : ui.nearbyItems[k]? = some item) :
    item.expanded = true ↔ ui.expandedProject = some (some k) := by
  unfold UI.nearbyItems at h
  cases ha : ui.app.analysis with
  | none => simp [ha] at h
  | some a =>
      cases he : ui.expandedProject with
      | none => simp [ha, he] at h
      | some e =>
          simp only [ha, he] at h
          simpa using expanded_item_iff _ _ k item h

/-- The page once the suspended run `run` has performed `setAnalysis(b)` and
`setLoading(false)`. -/
theorem step_resume_success (ui : UI) (run : Nat) (b : AnalysisResult)
    (hrun : ui.inFlight[run]? = some [Effect.setAnalysis b, Effect.setLoading false]) :
    (ui.step (UIEvent.resume run)).app.analysis = some b ∧
    (ui.step (UIEvent.resume run)).expandedProject =
      some (ui.expandedProject.getD none) := by
  simp only [UI.step, hrun]
  cases he : ui.expandedProject <;>
    simp [UI.perform, untilAwait, Effect.isAwait, UI.render, AppState.apply, he]

/-! ## Claim on the mounting of `NearbyProjects` -/

/-- C10, as stated, fails: after the first result is displayed and its item 0
is expanded, a second successful submission displays the second result with
its item 0 expanded, before any click on a header of that result. -/
theorem later_result_starts_expanded :
    (UI.run [UIEvent.submit (Settled.fulfilled (okResponse parisResult)),
             UIEvent.resume 0, UIEvent.resume 0,
             UIEvent.click 0,
             UIEvent.submit (Settled.fulfilled (okResponse lyonResult)),
             UIEvent.resume 0, UIEvent.resume 0]).app.analysis = some lyonResult ∧
    (UI.run [UIEvent.submit (Settled.fulfilled (okResponse parisResult)),
             UIEvent.resume 0, UIEvent.resume 0,
             UIEvent.click 0,
             UIEvent.submit (Settled.fulfilled (okResponse lyonResult)),
             UIEvent.resume 0, UIEvent.resume 0]).nearbyItems.map ProjectItem.expanded =
      [true, false] := by
  decide

/-- C10, amended: take any page reachable from the initial page in which a run
of `handleSubmit` has `setAnalysis(b)`, `setLoading(false)` left, let that run
finish, and let any events that are not header clicks follow. The result `b` is
displayed when the run finishes. If no result was displayed when the run
finished, no item is expanded, then and after the events that follow. If a
result was displayed, the expanded index is the one the list held when the run
finished, clicks made while the request was in flight included, then and after
the events that follow. In both cases the item at index `k` is expanded exactly
when the expanded index is `k`. -/
theorem expansion_after_success (events later : List UIEvent) (run : Nat) (b : AnalysisResult)
    (hrun : (UI.run events).inFlight[run]? =
      some [Effect.setAnalysis b, Effect.setLoading false])
    (hlater : ∀ event ∈ later, event.isClick = false) :
    ((UI.run events).step (UIEvent.resume run)).app.analysis = some b ∧
    ((UI.run events).app.analysis = none →
      (((UI.run events).step (UIEvent.resume run)).after later).expandedProject = some none ∧
      ∀ item ∈ (((UI.run events).step (UIEvent.resume run)).after later).nearbyItems,
        item.expanded = false) ∧
    ((UI.run events).app.analysis ≠ none →
      (((UI.run events).step (UIEvent.resume run)).after later).expandedProject =
        (UI.run events).expandedProject) ∧
    (∀ k item,
      (((UI.run events).step (UIEvent.resume run)).after later).nearbyItems[k]? = some item →
      (item.expanded = true ↔
        (((UI.run events).step (UIEvent.resume run)).after later).expandedProject =
          some (some k))) := by
  have hinv := run_mounted_iff events
  obtain ⟨han, hexp⟩ := step_resume_success (UI.run events) run b hrun
  have hne : ((UI.run events).step (UIEvent.resume run)).app.analysis ≠ none := by
    rw [han]
    simp
  refine ⟨han, fun hnone => ?_, fun hsome => ?_, fun k item hk => nearbyItems_expanded_iff _ k item hk⟩
  · have hnot : (UI.run events).expandedProject = none := by
      rw [hnone] at hinv
      simpa using hinv
    have hstart : ((UI.run events).step (UIEvent.resume run)).expandedProject = some none := by
      rw [hexp, hnot]
      rfl
    have hkeep := (after_keeps_index later _ none hlater hstart hne).1
    refine ⟨hkeep, fun item hmem => ?_⟩
    obtain ⟨k, hk⟩ := List.getElem?_of_mem hmem
    cases hx : item.expanded with
    | false => rfl
    | true =>
        have hidx := (nearbyItems_expanded_iff _ k item hk).1 hx
        rw [hkeep] at hidx
        simp at hidx
  · cases he : (UI.run events).expandedProject with
    | none =>
        rw [he] at hinv
        cases ha : (UI.run events).app.analysis with
        | none => exact absurd ha hsome
        | some a => simp [ha] at hinv
    | some e =>
        have hstart : ((UI.run events).step (UIEvent.resume run)).expandedProject = some e := by
          rw [hexp, he]
          rfl
        exact (after_keeps_index later _ e hlater hstart hne).1

/-- Witness of C10, amended: item 0 of the first result is expanded, the form is
submitted again, the header of item 1 is clicked while the request is in
flight, the second result arrives, and the user types in the input: item 1 of
the second result is the expanded one. -/
theorem expansion_after_success_witness :
    (((UI.run [UIEvent.submit (Settled.fulfilled (okResponse lyonResult)),
               UIEvent.resume 0, UIEvent.resume 0,
               UIEvent.click 0,
               UIEvent.submit (Settled.fulfilled (okResponse niceResult)),
               UIEvent.click 1,
               UIEvent.resume 0]).step (UIEvent.resume 0)).after
        [UIEvent.change "Nice"]).expandedProject = some (some 1) ∧
    ((UI.run [UIEvent.submit (Settled.fulfilled (okResponse lyonResult)),
              UIEvent.resume 0, UIEvent.resume 0,
              UIEvent.click 0,
              UIEvent.submit (Settled.fulfilled (okResponse niceResult)),
              UIEvent.click 1,
              UIEvent.resume 0]).step (UIEvent.resume 0)).app.analysis = some niceResult :=
  have h := expansion_after_success
    [UIEvent.submit (Settled.fulfilled (okResponse lyonResult)),
     UIEvent.resume 0, UIEvent.resume 0,
     UIEvent.click 0,
     UIEvent.submit (Settled.fulfilled (okResponse niceResult)),
     UIEvent.click 1,
     UIEvent.resume 0]
    [UIEvent.change "Nice"] 0 niceResult (by decide) (by decide)
  ⟨(h.2.2.1 (by decide)).trans (by decide), h.1⟩

end RealEstateFrontend
